import Mathlib

/-!
Verification of the chaind summarizer engine (services/summarizer/standard)
and service-construction checks (services/pusher/standard/parameters.go,
summarizer service.go), as a shallow embedding in Lean 4.

Epochs are Go `uint64` (`phase0.Epoch`); they are modelled as `Nat` with the
wrapping operations written out explicitly modulo `2 ^ 64`.  Wall-clock times
are Unix seconds, modelled as `Int` (Go `time.Time` in UTC; `AddDate(0,0,n)`
on a UTC time is exactly `n * 86400` seconds).  Fallible external calls
(chain data provider, summary store, metrics) are driven by an explicit
environment of oracles, and the persisted side of the summary store is an
explicit `Store` state threaded through every stage.
-/

namespace Chaind

/-- The modulus of Go `uint64` arithmetic. -/
def U64 : Nat := 2 ^ 64

/-- Go `uint64` subtraction: `a - b` computed modulo `2 ^ 64`. -/
def wsub (a b : Nat) : Nat := (a % U64 + (U64 - b % U64)) % U64

/-- The summarizer metadata record (the singleton checkpoint): fields
`LastEpoch`, `LastBlockEpoch`, `LastValidatorEpoch` (uint64 epochs),
`LastValidatorDay` (int64 Unix seconds, `-1` = not started) and
`PeriodicValidatorRollups`. -/
structure Metadata where
  lastEpoch : Nat
  lastBlockEpoch : Nat
  lastValidatorEpoch : Nat
  lastValidatorDay : Int
  periodicValidatorRollups : Bool
deriving DecidableEq

/-- The Go zero value of the metadata record (all numeric fields 0, flag
false); what a `metadata` value left unassigned by a failed read holds. -/
def zeroMetadata : Metadata :=
  { lastEpoch := 0
    lastBlockEpoch := 0
    lastValidatorEpoch := 0
    lastValidatorDay := 0
    periodicValidatorRollups := false }

/-- The summarizer `Service` configuration consulted by the handler:
the three enable flags, `maxDaysPerRun`, the optional
`validatorEpochRetention` (only its presence is consulted by the handler),
and the chain-clock constants behind `epochsPerDay`. -/
structure Service where
  epochSummaries : Bool
  blockSummaries : Bool
  validatorSummaries : Bool
  maxDaysPerRun : Nat
  validatorEpochRetention : Option Nat
  slotDurationSeconds : Nat
  slotsPerEpoch : Nat

/-- Outcome of `summarizeEpoch` for one epoch: `(updated, err)` in the source
becomes updated / insufficient data (`updated == false`, no error) / error. -/
inductive EpochOutcome
  | updated
  | insufficient
  | failed
deriving DecidableEq

/-- Oracles for every external call the handler makes: whether the k-th
`getMetadata` call fails, the per-epoch computation outcomes of each rollup
stage, the per-day outcome of the day aggregator, the pruner outcome, and the
chain clock (`StartOfEpoch`, `GenesisTime`, in Unix seconds). -/
structure Env where
  mdReadFails : Nat → Bool
  epochOutcome : Nat → EpochOutcome
  blockOk : Nat → Bool
  validatorOk : Nat → Bool
  dayOk : Int → Bool
  pruneOk : Bool
  startOfEpoch : Nat → Int
  genesisTime : Int

/-- The persisted state of the summary store: the checkpoint record, the
summaries written so far (recorded by key: epoch, epoch, epoch, day
timestamp), and a count of `getMetadata` calls made (instrumentation used to
state that a disabled stage never reads the checkpoint). -/
structure Store where
  md : Metadata
  epochsSummarized : List Nat
  blockEpochsSummarized : List Nat
  validatorEpochsSummarized : List Nat
  daysSummarized : List Int
  mdReads : Nat
deriving DecidableEq

/-- `getMetadata`: reads the checkpoint record from the store.  Increments
the read counter; fails if the environment says this call fails. -/
def getMetadata (env : Env) (st : Store) : Store × Option Metadata :=
  if env.mdReadFails st.mdReads = true then ({ st with mdReads := st.mdReads + 1 }, none)
  else ({ st with mdReads := st.mdReads + 1 }, some st.md)

/-- `epochsPerDay`: `86400.0 / slotDuration.Seconds() / float64(slotsPerEpoch)`
truncated to `phase0.Epoch`.  The source computes in `float64`; this `Nat`
division agrees with it whenever both divisions are exact (as in every
network configuration used in this development, e.g. 675s slots x 32
slots/epoch = 4 epochs/day). -/
def epochsPerDay (s : Service) : Nat := 86400 / s.slotDurationSeconds / s.slotsPerEpoch

/-- The resumption point of a rollup stage: `last := md.X; if last != 0 { last++ }`
(uint64 increment). -/
def resumePoint (last : Nat) : Nat := if last ≠ 0 then (last + 1) % U64 else last

/-- The per-run batch clamp of the epoch and validator rollup stages:
`if retention != nil && maxPerRun > 0 && target-start > maxPerRun { target = start + maxPerRun }`
with uint64 subtraction and addition. -/
def clampTarget (retentionSet : Bool) (maxPerRun start target : Nat) : Nat :=
  if retentionSet = true ∧ maxPerRun > 0 ∧ wsub target start > maxPerRun then
    (start + maxPerRun) % U64
  else target

/-- The block/validator stage ceiling:
`if summaryEpoch > md.LastEpoch && md.LastEpoch != 0 { summaryEpoch = md.LastEpoch }`. -/
def clampToLastEpoch (lastEpoch target : Nat) : Nat :=
  if target > lastEpoch ∧ lastEpoch ≠ 0 then lastEpoch else target

/-- The epochs visited by `for epoch := start; epoch <= target; epoch++`. -/
def epochRange (start target : Nat) : List Nat := List.range' start (target + 1 - start)

/-- Loop body of `summarizeEpochs`: one `summarizeEpoch` call per epoch.
Modelled from the spec: `summarizeEpoch` itself is not among the source files;
per the spec (4.2) a successful epoch persists one epoch summary and advances
`LastEpoch` to that epoch; `updated == false` (insufficient data) stops the
loop returning success; an error aborts with an error. -/
def epochLoop (env : Env) : List Nat → Store → Store × Bool
  | [], st => (st, true)
  | e :: rest, st =>
    match env.epochOutcome e with
    | .failed => (st, false)
    | .insufficient => (st, true)
    | .updated =>
        epochLoop env rest
          { st with
            md := { st.md with lastEpoch := e }
            epochsSummarized := st.epochsSummarized ++ [e] }

/-- `summarizeEpochs` (handler.go lines 81-116). -/
def summarizeEpochs (s : Service) (env : Env) (st : Store) (summaryEpoch : Nat) :
    Store × Bool :=
  if s.epochSummaries = false then (st, true) else
  match getMetadata env st with
  | (st', none) => (st', false)
  | (st', some md) =>
      epochLoop env
        (epochRange (resumePoint md.lastEpoch)
          (clampTarget s.validatorEpochRetention.isSome (s.maxDaysPerRun * epochsPerDay s % U64)
            (resumePoint md.lastEpoch) summaryEpoch))
        st'

/-- Loop body of `summarizeBlocks`.  Modelled from the spec:
`summarizeBlocksInEpoch` is not among the source files; per the spec (4.3) a
successful epoch persists that epoch's block summaries and advances
`LastBlockEpoch`. -/
def blockLoop (env : Env) : List Nat → Store → Store × Bool
  | [], st => (st, true)
  | e :: rest, st =>
    if env.blockOk e = true then
      blockLoop env rest
        { st with
          md := { st.md with lastBlockEpoch := e }
          blockEpochsSummarized := st.blockEpochsSummarized ++ [e] }
    else (st, false)

/-- `summarizeBlocks` (handler.go lines 118-152). -/
def summarizeBlocks (s : Service) (env : Env) (st : Store) (summaryEpoch : Nat) :
    Store × Bool :=
  if s.blockSummaries = false then (st, true) else
  match getMetadata env st with
  | (st', none) => (st', false)
  | (st', some md) =>
      blockLoop env
        (epochRange (resumePoint md.lastBlockEpoch) (clampToLastEpoch md.lastEpoch summaryEpoch))
        st'

/-- Loop body of `summarizeValidators`.  Modelled from the spec:
`summarizeValidatorsInEpoch` is not among the source files; per the spec (4.4)
a successful epoch persists that epoch's validator summaries and advances
`LastValidatorEpoch`. -/
def validatorLoop (env : Env) : List Nat → Store → Store × Bool
  | [], st => (st, true)
  | e :: rest, st =>
    if env.validatorOk e = true then
      validatorLoop env rest
        { st with
          md := { st.md with lastValidatorEpoch := e }
          validatorEpochsSummarized := st.validatorEpochsSummarized ++ [e] }
    else (st, false)

/-- `summarizeValidators` (handler.go lines 154-192): the `LastEpoch` ceiling
is applied to the requested epoch first, then the resume point and the
per-run batch clamp. -/
def summarizeValidators (s : Service) (env : Env) (st : Store) (summaryEpoch : Nat) :
    Store × Bool :=
  if s.validatorSummaries = false then (st, true) else
  match getMetadata env st with
  | (st', none) => (st', false)
  | (st', some md) =>
      validatorLoop env
        (epochRange (resumePoint md.lastValidatorEpoch)
          (clampTarget s.validatorEpochRetention.isSome (s.maxDaysPerRun * epochsPerDay s % U64)
            (resumePoint md.lastValidatorEpoch) (clampToLastEpoch md.lastEpoch summaryEpoch)))
        st'

/-- UTC midnight of the calendar day containing Unix time `t`
(`time.Date(y, m, d, 0, 0, 0, 0, time.UTC)` in the source). -/
def midnightUTC (t : Int) : Int := t - t % 86400

/-- An upper bound on the number of iterations of the day loop
(`for timestamp := start; timestamp.Before(endT); timestamp = timestamp.AddDate(0,0,1)`):
the number of whole or partial days in `[ts, endT)`. -/
def dayFuel (ts endT : Int) : Nat := ((endT - ts).toNat + 86399) / 86400

/-- Fuel-driven day loop of `summarizeValidatorDays`.  Modelled from the spec:
`summarizeValidatorsInDay` is not among the source files; per the spec (4.5) a
successful day persists one validator-day summary and advances
`LastValidatorDay` to that day.  The fuel bounds the iteration count; it is
always at least `dayFuel ts endT`, which suffices since each iteration
advances `ts` by 86400. -/
def dayLoopGo (env : Env) (endT : Int) : Nat → Int → Store → Store × Bool
  | 0, _, st => (st, true)
  | fuel + 1, ts, st =>
    if ts < endT then
      if env.dayOk ts = true then
        dayLoopGo env endT fuel (ts + 86400)
          { st with
            md := { st.md with lastValidatorDay := ts }
            daysSummarized := st.daysSummarized ++ [ts] }
      else (st, false)
    else (st, true)

/-- The day loop of `summarizeValidatorDays` with its fuel computed. -/
def dayLoop (env : Env) (endT ts : Int) (st : Store) : Store × Bool :=
  dayLoopGo env endT (dayFuel ts endT) ts st

/-- `summarizeValidatorDays` (handler.go lines 194-223): proceeds only when
`StartOfEpoch(LastValidatorEpoch)` is after `LastValidatorDay + 1 day`; the
start is the midnight of the genesis day (when `LastValidatorDay == -1`) or
the day after `LastValidatorDay`; the end bound is one day before the
start-of-epoch time itself. -/
def summarizeValidatorDays (env : Env) (st : Store) : Store × Bool :=
  match getMetadata env st with
  | (st', none) => (st', false)
  | (st', some md) =>
      if env.startOfEpoch md.lastValidatorEpoch > md.lastValidatorDay + 86400 then
        dayLoop env (env.startOfEpoch md.lastValidatorEpoch - 86400)
          (if md.lastValidatorDay = -1 then midnightUTC env.genesisTime
           else md.lastValidatorDay + 86400)
          st'
      else (st', true)

/-- Modelled from the spec: `prune` (4.6, the Retention Pruner) is not among
the source files; only its call site is.  It deletes old validator-epoch rows
and never touches the checkpoint; only its success or failure is relevant to
the claims, so it is modelled as an oracle outcome. -/
def prune (env : Env) (st : Store) (_summaryEpoch : Nat) : Store × Bool :=
  (st, env.pruneOk)

/-- Observable events of one `OnFinalityUpdated` invocation, in order:
per-stage completions and failures, a failure of the coordinator's own
metadata read, and the `monitorEpochProcessed` observability signal. -/
inductive Event
  | epochsOk
  | epochsErr
  | blocksOk
  | blocksErr
  | validatorsOk
  | validatorsErr
  | mdReadErr
  | dayOk
  | dayErr
  | pruneOk
  | pruneErr
  | signal
deriving DecidableEq

/-- Result of one `OnFinalityUpdated` invocation: the store it leaves behind
and the ordered trace of observable events. -/
structure RunResult where
  store : Store
  trace : List Event
deriving DecidableEq

/-- `OnFinalityUpdated` (handler.go lines 27-79).  `gateHeld` is whether the
single-permit activity semaphore is already held by another invocation when
`TryAcquire` runs.  On a failed coordinator metadata read the source logs the
error and continues; the value then consulted for `PeriodicValidatorRollups`
is modelled as the Go zero value of the record (flag false). -/
def OnFinalityUpdated (s : Service) (env : Env) (gateHeld : Bool) (st : Store)
    (finalizedEpoch : Nat) : RunResult :=
  if gateHeld then ⟨st, []⟩ else
  if finalizedEpoch = 0 then ⟨st, []⟩ else
  match summarizeEpochs s env st (finalizedEpoch - 1) with
  | (st1, false) => ⟨st1, [.epochsErr]⟩
  | (st1, true) =>
    match summarizeBlocks s env st1 (finalizedEpoch - 1) with
    | (st2, false) => ⟨st2, [.epochsOk, .blocksErr]⟩
    | (st2, true) =>
      match summarizeValidators s env st2 (finalizedEpoch - 1) with
      | (st3, false) => ⟨st3, [.epochsOk, .blocksOk, .validatorsErr]⟩
      | (st3, true) =>
        match getMetadata env st3 with
        | (st4, mdOpt) =>
          if (mdOpt.getD zeroMetadata).periodicValidatorRollups then
            match summarizeValidatorDays env st4 with
            | (st5, false) =>
                ⟨st5, [.epochsOk, .blocksOk, .validatorsOk]
                  ++ (if mdOpt.isNone then [.mdReadErr] else []) ++ [.dayErr]⟩
            | (st5, true) =>
              match prune env st5 (finalizedEpoch - 1) with
              | (st6, false) =>
                  ⟨st6, [.epochsOk, .blocksOk, .validatorsOk]
                    ++ (if mdOpt.isNone then [.mdReadErr] else []) ++ [.dayOk, .pruneErr]⟩
              | (st6, true) =>
                  ⟨st6, [.epochsOk, .blocksOk, .validatorsOk]
                    ++ (if mdOpt.isNone then [.mdReadErr] else []) ++ [.dayOk, .pruneOk, .signal]⟩
          else
            ⟨st4, [.epochsOk, .blocksOk, .validatorsOk]
              ++ (if mdOpt.isNone then [.mdReadErr] else []) ++ [.signal]⟩

/-- Pure enumeration of UTC-day timestamps with the same fuel convention as
the day loop, for reasoning about day iteration. -/
def daysFromGo : Nat → Int → Int → List Int
  | 0, _, _ => []
  | fuel + 1, start, endT =>
    if start < endT then start :: daysFromGo fuel (start + 86400) endT else []

/-- The UTC-day timestamps `start, start + 1 day, ...` strictly below `endT`. -/
def daysFrom (start endT : Int) : List Int := daysFromGo (dayFuel start endT) start endT

/-- Follows the spec's words for claim C3 (not the source): the day range the
claim describes, from `startTime` up to an end bound of one day before the
MIDNIGHT of the start-of-epoch time of `lastValidatorEpoch`, exclusive. -/
def specClaimDayRange (startTime epochTime : Int) : List Int :=
  daysFrom startTime (midnightUTC epochTime - 86400)

/-! ### Service construction: pusher parameters.go and summarizer service.go -/

/-- The chain database as a capability bundle: whether the supplied
`chaindb.Service` implements each provider/setter interface the summarizer's
`New` checks with a type assertion. -/
structure ChainDB where
  isProposerDutiesProvider : Bool
  isAttestationsProvider : Bool
  isBlocksProvider : Bool
  isBlocksSetter : Bool
  isDepositsProvider : Bool
  isValidatorsProvider : Bool
  isAttesterSlashingsProvider : Bool
  isProposerSlashingsProvider : Bool
deriving DecidableEq

/-- Whether the chain database implements every capability `New` requires. -/
def hasAllCapabilities (db : ChainDB) : Bool :=
  db.isProposerDutiesProvider && db.isAttestationsProvider && db.isBlocksProvider &&
  db.isBlocksSetter && db.isDepositsProvider && db.isValidatorsProvider &&
  db.isAttesterSlashingsProvider && db.isProposerSlashingsProvider

/-- The pusher `parameters` record (parameters.go lines 25-31).  The monitor
is kept only by presence; `timeout` is a Go `time.Duration` where `0` means
unset. -/
structure parameters where
  logLevel : Int
  hasMonitor : Bool
  listenAddress : String
  chainDB : Option ChainDB
  timeout : Nat
deriving DecidableEq

/-- A functional option, as in the source's `Parameter` interface: it is
applied to the parameter record being built. -/
abbrev Parameter := parameters → parameters

/-- `WithLogLevel` (parameters.go lines 45-49). -/
def WithLogLevel (logLevel : Int) : Parameter := fun p => { p with logLevel := logLevel }

/-- `WithMonitor` (parameters.go lines 52-56). -/
def WithMonitor (monitor : Bool) : Parameter := fun p => { p with hasMonitor := monitor }

/-- `WithChainDB` (parameters.go lines 59-63). -/
def WithChainDB (chainDB : ChainDB) : Parameter := fun p => { p with chainDB := some chainDB }

/-- `WithListenAddress` (parameters.go lines 66-70). -/
def WithListenAddress (address : String) : Parameter := fun p => { p with listenAddress := address }

/-- `WithTimeout` (parameters.go lines 73-77). -/
def WithTimeout (timeout : Nat) : Parameter := fun p => { p with timeout := timeout }

/-- The fold of `parseAndCheckParameters`: the defaults (global log level,
2-minute timeout expressed in seconds) with each supplied option applied in
order.  (The source's `if params != nil` guard inside the loop checks the
slice, which is never nil while iterating, so the fold is unconditional.) -/
def applyParameters (globalLogLevel : Int) (params : List Parameter) : parameters :=
  params.foldl (fun acc f => f acc)
    { logLevel := globalLogLevel
      hasMonitor := false
      listenAddress := ""
      chainDB := none
      timeout := 120 }

/-- `parseAndCheckParameters` (parameters.go lines 80-102). -/
def parseAndCheckParameters (globalLogLevel : Int) (params : List Parameter) :
    Except String parameters :=
  if (applyParameters globalLogLevel params).chainDB = none then
    .error "no chain database specified"
  else if (applyParameters globalLogLevel params).listenAddress = "" then
    .error "no listen address specified"
  else if (applyParameters globalLogLevel params).timeout = 0 then
    .error "no timeout specified"
  else .ok (applyParameters globalLogLevel params)

/-- Modelled from the spec: the summarizer's own parameter record (its
parameters.go is not among the source files); `New` consumes the chain
database and the three stage enable flags from it. -/
structure SummarizerParameters where
  chainDB : ChainDB
  epochSummaries : Bool
  blockSummaries : Bool
  validatorSummaries : Bool
deriving DecidableEq

/-- The constructed summarizer service, restricted to the fields the claims
consult. -/
structure SummarizerService where
  chainDB : ChainDB
  epochSummaries : Bool
  blockSummaries : Bool
  validatorSummaries : Bool
deriving DecidableEq

/-- The named missing-capability errors `New` can return (service.go lines
68-106). -/
def capabilityErrors : List String :=
  [ "chain DB does not provide proposer duties"
  , "chain DB does not provide attestations"
  , "chain DB does not provide blocks"
  , "chain DB does not support block setting"
  , "chain DB does not provide deposits"
  , "chain DB does not provide validators"
  , "chain DB does not provide attester slashings"
  , "chain DB does not provide proposer slashings" ]

/-- `New` (summarizer service.go lines 55-129): parameter parsing (abstracted
as an `Except` input, since the summarizer's parameters.go is not among the
source files), metrics registration (abstracted as an oracle), then the eight
capability checks in source order, each failing fast with its named error. -/
def New (parsed : Except String SummarizerParameters) (metricsOk : Bool) :
    Except String SummarizerService :=
  match parsed with
  | .error _ => .error "problem with parameters"
  | .ok p =>
    if metricsOk = false then .error "failed to register metrics"
    else if p.chainDB.isProposerDutiesProvider = false then
      .error "chain DB does not provide proposer duties"
    else if p.chainDB.isAttestationsProvider = false then
      .error "chain DB does not provide attestations"
    else if p.chainDB.isBlocksProvider = false then
      .error "chain DB does not provide blocks"
    else if p.chainDB.isBlocksSetter = false then
      .error "chain DB does not support block setting"
    else if p.chainDB.isDepositsProvider = false then
      .error "chain DB does not provide deposits"
    else if p.chainDB.isValidatorsProvider = false then
      .error "chain DB does not provide validators"
    else if p.chainDB.isAttesterSlashingsProvider = false then
      .error "chain DB does not provide attester slashings"
    else if p.chainDB.isProposerSlashingsProvider = false then
      .error "chain DB does not provide proposer slashings"
    else
      .ok { chainDB := p.chainDB
            epochSummaries := p.epochSummaries
            blockSummaries := p.blockSummaries
            validatorSummaries := p.validatorSummaries }

/-! ### Concrete fixtures used by closed theorems and witnesses -/

/-- An initial store: the zero checkpoint with the `LastValidatorDay = -1`
sentinel, no summaries, no reads. -/
def stInit : Store :=
  { md := { zeroMetadata with lastValidatorDay := -1 }
    epochsSummarized := []
    blockEpochsSummarized := []
    validatorEpochsSummarized := []
    daysSummarized := []
    mdReads := 0 }

/-- An environment in which every external call succeeds and every epoch has
sufficient data. -/
def envAllOk : Env :=
  { mdReadFails := fun _ => false
    epochOutcome := fun _ => .updated
    blockOk := fun _ => true
    validatorOk := fun _ => true
    dayOk := fun _ => true
    pruneOk := true
    startOfEpoch := fun _ => 0
    genesisTime := 0 }

/-- A service with all three rollup stages enabled and no retention policy. -/
def sAll : Service :=
  { epochSummaries := true
    blockSummaries := true
    validatorSummaries := true
    maxDaysPerRun := 0
    validatorEpochRetention := none
    slotDurationSeconds := 12
    slotsPerEpoch := 32 }

/-- A service with all stages enabled, a retention policy configured,
`maxDaysPerRun = 2`, and a chain clock yielding 4 epochs per day
(675-second slots, 32 slots per epoch), so `maxEpochsPerRun = 8`. -/
def sRetention : Service :=
  { epochSummaries := true
    blockSummaries := true
    validatorSummaries := true
    maxDaysPerRun := 2
    validatorEpochRetention := some 0
    slotDurationSeconds := 675
    slotsPerEpoch := 32 }

/-- A service with all three stage flags disabled. -/
def sOff : Service :=
  { epochSummaries := false
    blockSummaries := false
    validatorSummaries := false
    maxDaysPerRun := 0
    validatorEpochRetention := none
    slotDurationSeconds := 12
    slotsPerEpoch := 32 }

/-- A store whose checkpoint has `LastEpoch = 9` (so the epoch stage resumes
at 10). -/
def stLast9 : Store := { stInit with md := { stInit.md with lastEpoch := 9 } }

/-- A store whose checkpoint has `LastEpoch = 5` and `LastValidatorEpoch = 9`
(reachable via the `LastEpoch == 0` sentinel exception: a run with the epoch
stage halting at once lets the validator stage advance unclamped, after which
the epoch stage catches up only to 5). -/
def stC4 : Store :=
  { stInit with md := { stInit.md with lastEpoch := 5, lastValidatorEpoch := 9 } }

/-- Environment whose fourth metadata read (index 3: the coordinator's own
read after the three rollup stages) fails; everything else succeeds. -/
def envReadFail3 : Env := { envAllOk with mdReadFails := fun k => k == 3 }

/-- A store whose checkpoint `LastEpoch` sits at the uint64 wrap boundary. -/
def stWrap : Store := { stInit with md := { stInit.md with lastEpoch := U64 - 1 } }

/-- Environment for the spec's day-alignment example: genesis at
2020-12-01T12:00:00Z (Unix 1606824000) and the start-of-epoch time of the
last validator epoch at 2020-12-04T00:00:00Z (Unix 1607040000). -/
def envDec2020 : Env :=
  { envAllOk with
    startOfEpoch := fun _ => 1607040000
    genesisTime := 1606824000 }

/-- Same genesis, but the start-of-epoch time of the last validator epoch is
2020-12-04T06:00:00Z (Unix 1607061600), not a midnight. -/
def envDec2020x : Env := { envDec2020 with startOfEpoch := fun _ => 1607061600 }

/-- Store for the day-aggregator examples: no day summary yet
(`LastValidatorDay = -1`), rollups enabled. -/
def stDec2020 : Store :=
  { stInit with
    md := { stInit.md with lastValidatorEpoch := 100, periodicValidatorRollups := true } }

/-- Environment in which epochs up to 5 have data and epoch 6 onward reports
insufficient data. -/
def envC6 : Env :=
  { envAllOk with epochOutcome := fun e => if e ≤ 5 then .updated else .insufficient }

/-- A store whose checkpoint has `LastEpoch = 3` (so the epoch stage resumes
at 4). -/
def stC6 : Store := { stInit with md := { stInit.md with lastEpoch := 3 } }

/-- A chain database implementing every capability. -/
def dbAllCaps : ChainDB :=
  { isProposerDutiesProvider := true
    isAttestationsProvider := true
    isBlocksProvider := true
    isBlocksSetter := true
    isDepositsProvider := true
    isValidatorsProvider := true
    isAttesterSlashingsProvider := true
    isProposerSlashingsProvider := true }

/-- A chain database implementing everything except the attestations
provider. -/
def dbNoAtt : ChainDB := { dbAllCaps with isAttestationsProvider := false }

/-- Summarizer parameters over `dbNoAtt`. -/
def pNoAtt : SummarizerParameters :=
  { chainDB := dbNoAtt
    epochSummaries := true
    blockSummaries := true
    validatorSummaries := true }

/-- Summarizer parameters over `dbAllCaps`. -/
def pAllCaps : SummarizerParameters :=
  { chainDB := dbAllCaps
    epochSummaries := true
    blockSummaries := true
    validatorSummaries := true }

/-! ### Helper lemmas about the store accessor and stage loops -/

theorem mem_range'_le {e s n : Nat} (h : e ∈ List.range' s n) : s ≤ e :=
  (List.mem_range'_1.mp h).1

theorem getMetadata_fst (env : Env) (st : Store) :
    (getMetadata env st).1 = { st with mdReads := st.mdReads + 1 } := by
  unfold getMetadata
  split <;> rfl

theorem getMetadata_some {env : Env} {st : Store} {m : Metadata}
    (h : (getMetadata env st).2 = some m) : m = st.md := by
  unfold getMetadata at h
  split at h
  · simp at h
  · simp at h
    exact h.symm

theorem resumePoint_le {l : Nat} (h : l + 1 < U64) : l ≤ resumePoint l := by
  unfold resumePoint
  split
  · rw [Nat.mod_eq_of_lt h]
    exact Nat.le_succ l
  · exact Nat.le_refl l

/-- The epoch loop touches no checkpoint field other than `lastEpoch`. -/
theorem epochLoop_md (env : Env) (l : List Nat) (st : Store) :
    (epochLoop env l st).1.md
      = { st.md with lastEpoch := (epochLoop env l st).1.md.lastEpoch } := by
  induction l generalizing st with
  | nil => rfl
  | cons e rest ih =>
    cases h : env.epochOutcome e with
    | updated =>
      simp only [epochLoop, h]
      conv_lhs => rw [ih]
    | insufficient => simp only [epochLoop, h]
    | failed => simp only [epochLoop, h]

/-- The epoch loop leaves `lastEpoch` unchanged or sets it to a visited epoch. -/
theorem epochLoop_lastEpoch_cases (env : Env) (l : List Nat) (st : Store) :
    (epochLoop env l st).1.md.lastEpoch = st.md.lastEpoch
    ∨ (epochLoop env l st).1.md.lastEpoch ∈ l := by
  induction l generalizing st with
  | nil => exact Or.inl rfl
  | cons e rest ih =>
    cases h : env.epochOutcome e with
    | updated =>
      simp only [epochLoop, h]
      rcases ih { st with
          md := { st.md with lastEpoch := e }
          epochsSummarized := st.epochsSummarized ++ [e] } with h' | h'
      · refine Or.inr ?_
        rw [h']
        exact List.mem_cons_self _ _
      · exact Or.inr (List.mem_cons_of_mem _ h')
    | insufficient => simp [epochLoop, h]
    | failed => simp [epochLoop, h]

/-- The block loop touches no checkpoint field other than `lastBlockEpoch`. -/
theorem blockLoop_md (env : Env) (l : List Nat) (st : Store) :
    (blockLoop env l st).1.md
      = { st.md with lastBlockEpoch := (blockLoop env l st).1.md.lastBlockEpoch } := by
  induction l generalizing st with
  | nil => rfl
  | cons e rest ih =>
    simp only [blockLoop]
    split
    · conv_lhs => rw [ih]
    · rfl

theorem blockLoop_lastBlockEpoch_cases (env : Env) (l : List Nat) (st : Store) :
    (blockLoop env l st).1.md.lastBlockEpoch = st.md.lastBlockEpoch
    ∨ (blockLoop env l st).1.md.lastBlockEpoch ∈ l := by
  induction l generalizing st with
  | nil => exact Or.inl rfl
  | cons e rest ih =>
    simp only [blockLoop]
    split
    · rcases ih { st with
          md := { st.md with lastBlockEpoch := e }
          blockEpochsSummarized := st.blockEpochsSummarized ++ [e] } with h' | h'
      · refine Or.inr ?_
        rw [h']
        exact List.mem_cons_self _ _
      · exact Or.inr (List.mem_cons_of_mem _ h')
    · exact Or.inl rfl

/-- The validator loop touches no checkpoint field other than `lastValidatorEpoch`. -/
theorem validatorLoop_md (env : Env) (l : List Nat) (st : Store) :
    (validatorLoop env l st).1.md
      = { st.md with lastValidatorEpoch := (validatorLoop env l st).1.md.lastValidatorEpoch } := by
  induction l generalizing st with
  | nil => rfl
  | cons e rest ih =>
    simp only [validatorLoop]
    split
    · conv_lhs => rw [ih]
    · rfl

theorem validatorLoop_lastValidatorEpoch_cases (env : Env) (l : List Nat) (st : Store) :
    (validatorLoop env l st).1.md.lastValidatorEpoch = st.md.lastValidatorEpoch
    ∨ (validatorLoop env l st).1.md.lastValidatorEpoch ∈ l := by
  induction l generalizing st with
  | nil => exact Or.inl rfl
  | cons e rest ih =>
    simp only [validatorLoop]
    split
    · rcases ih { st with
          md := { st.md with lastValidatorEpoch := e }
          validatorEpochsSummarized := st.validatorEpochsSummarized ++ [e] } with h' | h'
      · refine Or.inr ?_
        rw [h']
        exact List.mem_cons_self _ _
      · exact Or.inr (List.mem_cons_of_mem _ h')
    · exact Or.inl rfl

/-- The day loop touches no checkpoint field other than `lastValidatorDay`. -/
theorem dayLoopGo_md (env : Env) (endT : Int) (fuel : Nat) (ts : Int) (st : Store) :
    (dayLoopGo env endT fuel ts st).1.md
      = { st.md with lastValidatorDay := (dayLoopGo env endT fuel ts st).1.md.lastValidatorDay } := by
  induction fuel generalizing ts st with
  | zero => rfl
  | succ fuel ih =>
    simp only [dayLoopGo]
    split
    · split
      · conv_lhs => rw [ih]
      · rfl
    · rfl

/-- The day loop never moves `lastValidatorDay` below a lower bound on its
starting timestamp. -/
theorem dayLoopGo_day_le (env : Env) (endT : Int) (fuel : Nat) (ts : Int) (st : Store)
    (h : st.md.lastValidatorDay ≤ ts) :
    st.md.lastValidatorDay ≤ (dayLoopGo env endT fuel ts st).1.md.lastValidatorDay := by
  induction fuel generalizing ts st with
  | zero => exact Int.le_refl _
  | succ fuel ih =>
    simp only [dayLoopGo]
    split
    · split
      · refine Int.le_trans h ?_
        exact ih (ts + 86400)
          { st with
            md := { st.md with lastValidatorDay := ts }
            daysSummarized := st.daysSummarized ++ [ts] }
          (by show ts ≤ ts + 86400; omega)
      · exact Int.le_refl _
    · exact Int.le_refl _

/-! ### Stage-level frame and monotonicity lemmas -/

/-- The epoch rollup stage touches no checkpoint field other than `lastEpoch`. -/
theorem summarizeEpochs_md (s : Service) (env : Env) (st : Store) (e : Nat) :
    (summarizeEpochs s env st e).1.md
      = { st.md with lastEpoch := (summarizeEpochs s env st e).1.md.lastEpoch } := by
  unfold summarizeEpochs
  split
  · rfl
  by_cases hr : env.mdReadFails st.mdReads = true
  · simp [getMetadata, hr]
  · simp only [getMetadata, hr, if_false, Bool.false_eq_true, ite_false]
    conv_lhs => rw [epochLoop_md]

/-- The block rollup stage touches no checkpoint field other than `lastBlockEpoch`. -/
theorem summarizeBlocks_md (s : Service) (env : Env) (st : Store) (e : Nat) :
    (summarizeBlocks s env st e).1.md
      = { st.md with lastBlockEpoch := (summarizeBlocks s env st e).1.md.lastBlockEpoch } := by
  unfold summarizeBlocks
  split
  · rfl
  by_cases hr : env.mdReadFails st.mdReads = true
  · simp [getMetadata, hr]
  · simp only [getMetadata, hr, if_false, Bool.false_eq_true, ite_false]
    conv_lhs => rw [blockLoop_md]

/-- The validator rollup stage touches no checkpoint field other than
`lastValidatorEpoch`. -/
theorem summarizeValidators_md (s : Service) (env : Env) (st : Store) (e : Nat) :
    (summarizeValidators s env st e).1.md
      = { st.md with lastValidatorEpoch := (summarizeValidators s env st e).1.md.lastValidatorEpoch } := by
  unfold summarizeValidators
  split
  · rfl
  by_cases hr : env.mdReadFails st.mdReads = true
  · simp [getMetadata, hr]
  · simp only [getMetadata, hr, if_false, Bool.false_eq_true, ite_false]
    conv_lhs => rw [validatorLoop_md]

/-- The day aggregator touches no checkpoint field other than `lastValidatorDay`. -/
theorem summarizeValidatorDays_md (env : Env) (st : Store) :
    (summarizeValidatorDays env st).1.md
      = { st.md with lastValidatorDay := (summarizeValidatorDays env st).1.md.lastValidatorDay } := by
  unfold summarizeValidatorDays
  by_cases hr : env.mdReadFails st.mdReads = true
  · simp [getMetadata, hr]
  · simp only [getMetadata, hr, if_false, Bool.false_eq_true, ite_false]
    split
    · unfold dayLoop
      conv_lhs => rw [dayLoopGo_md]
    · rfl

/-- With its resume point below the uint64 wrap boundary, the epoch rollup
stage never decreases `lastEpoch`. -/
theorem summarizeEpochs_lastEpoch_le (s : Service) (env : Env) (st : Store) (e : Nat)
    (h : st.md.lastEpoch + 1 < U64) :
    st.md.lastEpoch ≤ (summarizeEpochs s env st e).1.md.lastEpoch := by
  unfold summarizeEpochs
  split
  · exact Nat.le_refl _
  by_cases hr : env.mdReadFails st.mdReads = true
  · simp [getMetadata, hr]
  · simp only [getMetadata, hr, if_false, Bool.false_eq_true, ite_false]
    rcases epochLoop_lastEpoch_cases env
        (epochRange (resumePoint st.md.lastEpoch)
          (clampTarget s.validatorEpochRetention.isSome (s.maxDaysPerRun * epochsPerDay s % U64)
            (resumePoint st.md.lastEpoch) e))
        { st with mdReads := st.mdReads + 1 } with h' | h'
    · rw [h']
    · exact Nat.le_trans (resumePoint_le h) (mem_range'_le h')

/-- With its resume point below the uint64 wrap boundary, the block rollup
stage never decreases `lastBlockEpoch`. -/
theorem summarizeBlocks_lastBlockEpoch_le (s : Service) (env : Env) (st : Store) (e : Nat)
    (h : st.md.lastBlockEpoch + 1 < U64) :
    st.md.lastBlockEpoch ≤ (summarizeBlocks s env st e).1.md.lastBlockEpoch := by
  unfold summarizeBlocks
  split
  · exact Nat.le_refl _
  by_cases hr : env.mdReadFails st.mdReads = true
  · simp [getMetadata, hr]
  · simp only [getMetadata, hr, if_false, Bool.false_eq_true, ite_false]
    rcases blockLoop_lastBlockEpoch_cases env
        (epochRange (resumePoint st.md.lastBlockEpoch) (clampToLastEpoch st.md.lastEpoch e))
        { st with mdReads := st.mdReads + 1 } with h' | h'
    · rw [h']
    · exact Nat.le_trans (resumePoint_le h) (mem_range'_le h')

/-- With its resume point below the uint64 wrap boundary, the validator
rollup stage never decreases `lastValidatorEpoch`. -/
theorem summarizeValidators_lastValidatorEpoch_le (s : Service) (env : Env) (st : Store) (e : Nat)
    (h : st.md.lastValidatorEpoch + 1 < U64) :
    st.md.lastValidatorEpoch ≤ (summarizeValidators s env st e).1.md.lastValidatorEpoch := by
  unfold summarizeValidators
  split
  · exact Nat.le_refl _
  by_cases hr : env.mdReadFails st.mdReads = true
  · simp [getMetadata, hr]
  · simp only [getMetadata, hr, if_false, Bool.false_eq_true, ite_false]
    rcases validatorLoop_lastValidatorEpoch_cases env
        (epochRange (resumePoint st.md.lastValidatorEpoch)
          (clampTarget s.validatorEpochRetention.isSome (s.maxDaysPerRun * epochsPerDay s % U64)
            (resumePoint st.md.lastValidatorEpoch) (clampToLastEpoch st.md.lastEpoch e)))
        { st with mdReads := st.mdReads + 1 } with h' | h'
    · rw [h']
    · exact Nat.le_trans (resumePoint_le h) (mem_range'_le h')

/-- With a genesis time at or after the Unix epoch, the day aggregator never
decreases `lastValidatorDay`. -/
theorem summarizeValidatorDays_day_le (env : Env) (st : Store)
    (hg : 0 ≤ env.genesisTime) :
    st.md.lastValidatorDay ≤ (summarizeValidatorDays env st).1.md.lastValidatorDay := by
  unfold summarizeValidatorDays
  by_cases hr : env.mdReadFails st.mdReads = true
  · simp [getMetadata, hr]
  · simp only [getMetadata, hr, if_false, Bool.false_eq_true, ite_false]
    split
    · unfold dayLoop
      apply dayLoopGo_day_le
      split
      · rename_i hsent
        show st.md.lastValidatorDay ≤ midnightUTC env.genesisTime
        rw [hsent]
        unfold midnightUTC
        omega
      · show st.md.lastValidatorDay ≤ st.md.lastValidatorDay + 86400
        omega
    · exact Int.le_refl _

/-! ### Early-halt and day-iteration characterizations -/

/-- If every epoch from `a` up to (but excluding) `E` has data and `E`
reports insufficient data, the epoch loop over `a..a+n-1` (with `E` in range)
returns success, summarizes exactly `a..E-1`, and leaves `lastEpoch` at `E-1`
when at least one epoch completed, untouched otherwise. -/
theorem epochLoop_insufficient_halt (env : Env) (E : Nat)
    (hins : env.epochOutcome E = .insufficient) :
    ∀ (n a : Nat) (st : Store),
      (∀ e', a ≤ e' → e' < E → env.epochOutcome e' = .updated) →
      a ≤ E → E < a + n →
      (epochLoop env (List.range' a n) st).2 = true
      ∧ (epochLoop env (List.range' a n) st).1.md.lastEpoch
          = (if a < E then E - 1 else st.md.lastEpoch)
      ∧ (epochLoop env (List.range' a n) st).1.epochsSummarized
          = st.epochsSummarized ++ List.range' a (E - a) := by
  intro n
  induction n with
  | zero =>
    intro a st _ h1 h2
    omega
  | succ n ih =>
    intro a st hup h1 h2
    rcases Nat.eq_or_lt_of_le h1 with he | hlt
    · subst he
      simp only [List.range', epochLoop, hins]
      refine ⟨by trivial, by simp, ?_⟩
      have h0 : a - a = 0 := by omega
      rw [h0]
      simp [List.range']
    · have hupd := hup a (Nat.le_refl a) hlt
      simp only [List.range', epochLoop, hupd]
      obtain ⟨i1, i2, i3⟩ := ih (a + 1)
        { st with
          md := { st.md with lastEpoch := a }
          epochsSummarized := st.epochsSummarized ++ [a] }
        (fun e' h1' h2' => hup e' (Nat.le_of_succ_le h1') h2') hlt (by omega)
      refine ⟨i1, ?_, ?_⟩
      · rw [i2]
        show (if a + 1 < E then E - 1 else a) = (if a < E then E - 1 else st.md.lastEpoch)
        rw [if_pos hlt]
        split <;> omega
      · rw [i3]
        show (st.epochsSummarized ++ [a]) ++ List.range' (a + 1) (E - (a + 1))
            = st.epochsSummarized ++ List.range' a (E - a)
        have hn : E - a = (E - (a + 1)) + 1 := by omega
        rw [hn]
        show (st.epochsSummarized ++ [a]) ++ List.range' (a + 1) (E - (a + 1))
            = st.epochsSummarized ++ (a :: List.range' (a + 1) (E - (a + 1)))
        simp

/-- Membership in the enumerated day list: exactly the timestamps
`start + k * 86400` strictly below the end bound, provided the fuel covers
the range. -/
theorem daysFromGo_mem (t : Int) :
    ∀ (fuel : Nat) (start endT : Int), dayFuel start endT ≤ fuel →
      (t ∈ daysFromGo fuel start endT ↔ ∃ k : Nat, t = start + 86400 * k ∧ t < endT) := by
  intro fuel
  induction fuel with
  | zero =>
    intro start endT hf
    unfold dayFuel at hf
    simp only [daysFromGo, List.not_mem_nil, false_iff]
    rintro ⟨k, hk, hklt⟩
    have hk' : (0 : Int) ≤ 86400 * k := by positivity
    omega
  | succ fuel ih =>
    intro start endT hf
    simp only [daysFromGo]
    split
    · rename_i hlt
      rw [List.mem_cons]
      constructor
      · rintro (rfl | hmem)
        · exact ⟨0, by omega, hlt⟩
        · obtain ⟨k, hk, hklt⟩ := (ih (start + 86400) endT
            (by unfold dayFuel at hf ⊢; omega)).mp hmem
          exact ⟨k + 1, by push_cast at hk ⊢; omega, hklt⟩
      · rintro ⟨k, hk, hklt⟩
        cases k with
        | zero =>
          left
          omega
        | succ k =>
          right
          refine (ih (start + 86400) endT (by unfold dayFuel at hf ⊢; omega)).mpr
            ⟨k, by push_cast at hk ⊢; omega, hklt⟩
    · rename_i hge
      simp only [List.not_mem_nil, false_iff]
      rintro ⟨k, hk, hklt⟩
      have hk' : (0 : Int) ≤ 86400 * k := by positivity
      omega

/-- When every per-day computation succeeds, the day loop returns success,
appends exactly the enumerated days to the store, and leaves
`lastValidatorDay` at the last produced day (unchanged if none). -/
theorem dayLoopGo_all_ok (env : Env) (endT : Int) (hok : ∀ t, env.dayOk t = true) :
    ∀ (fuel : Nat) (ts : Int) (st : Store),
      dayLoopGo env endT fuel ts st
        = ({ st with
             md := { st.md with
               lastValidatorDay := (daysFromGo fuel ts endT).getLastD st.md.lastValidatorDay }
             daysSummarized := st.daysSummarized ++ daysFromGo fuel ts endT }, true) := by
  intro fuel
  induction fuel with
  | zero =>
    intro ts st
    simp [dayLoopGo, daysFromGo]
  | succ fuel ih =>
    intro ts st
    simp only [dayLoopGo, daysFromGo]
    split
    · rw [if_pos (hok ts), ih (ts + 86400), List.getLastD_cons]
      simp
    · simp

/-! ### Claim theorems -/

/-- C2: with retention configured and `maxEpochsPerRun = 8`, the spec's
batch-bound example holds (a first pass from epoch 0 targeting 100 summarizes
exactly epochs 0..8 and leaves `lastEpoch = 8`), but the clamp is computed
with a wrapping uint64 subtraction: from a checkpoint with `LastEpoch = 9`
(resume point 10) and a requested `summaryEpoch = 5`, `5 - 10` wraps, the
clamp fires upward, and the pass summarizes epochs 10..18 — the target 18 is
strictly above the requested 5, refuting
`target = min(requested, start + maxEpochsPerRun)` for every checkpoint. -/
theorem c2_batch_clamp_wraps :
    epochsPerDay sRetention = 4
    ∧ (summarizeEpochs sRetention envAllOk stInit 100).1.md.lastEpoch = 8
    ∧ (summarizeEpochs sRetention envAllOk stInit 100).1.epochsSummarized = List.range' 0 9
    ∧ (summarizeEpochs sRetention envAllOk stLast9 5).1.md.lastEpoch = 18
    ∧ (summarizeEpochs sRetention envAllOk stLast9 5).1.epochsSummarized = List.range' 10 9
    ∧ (18 : Nat) ≠ min 5 (10 + 8) := by
  decide

/-- C4: from a checkpoint with `LastEpoch = 5` and `LastValidatorEpoch = 9`,
a pass requesting `summaryEpoch = 5` with retention configured and
`maxEpochsPerRun = 8` makes the validator stage summarize epochs 10..18 —
every one of them beyond `min(summaryEpoch, lastEpoch) = 5` while
`lastEpoch = 5 ≠ 0` — because the per-run clamp's wrapping uint64 subtraction
overrides the `LastEpoch` ceiling applied just before it. -/
theorem c4_validator_ceiling_exceeded :
    stC4.md.lastEpoch = 5
    ∧ stC4.md.lastEpoch ≠ 0
    ∧ (summarizeValidators sRetention envAllOk stC4 5).1.md.lastValidatorEpoch = 18
    ∧ (summarizeValidators sRetention envAllOk stC4 5).1.validatorEpochsSummarized = List.range' 10 9
    ∧ min 5 stC4.md.lastEpoch < 10 := by
  decide

/-- C1: when the three rollup stages succeed but the coordinator's own
metadata read (before the `PeriodicValidatorRollups` check) fails, the source
logs the error and continues, so the `monitorEpochProcessed` signal is still
emitted: the trace contains both the read error and the signal, refuting
"the signal is emitted iff the entire pass completes without error". -/
theorem c1_signal_despite_read_error :
    (OnFinalityUpdated sAll envReadFail3 false stInit 5).trace
      = [.epochsOk, .blocksOk, .validatorsOk, .mdReadErr, .signal]
    ∧ Event.signal ∈ (OnFinalityUpdated sAll envReadFail3 false stInit 5).trace
    ∧ Event.mdReadErr ∈ (OnFinalityUpdated sAll envReadFail3 false stInit 5).trace := by
  decide

/-- C7 counterexample: from a checkpoint with `LastEpoch = 2^64 - 1`, the
resume increment wraps to 0 and a successful pass for `finalizedEpoch = 1`
re-assigns `LastEpoch := 0`, rolling the field back. -/
theorem c7_counterexample_wrap_rollback :
    stWrap.md.lastEpoch = U64 - 1
    ∧ (OnFinalityUpdated sAll envAllOk false stWrap 1).store.md.lastEpoch = 0
    ∧ (OnFinalityUpdated sAll envAllOk false stWrap 1).store.md.lastEpoch
        < stWrap.md.lastEpoch := by
  decide

/-- C3 counterexample: with genesis 2020-12-01T12:00:00Z and the
start-of-epoch time of the last validator epoch at 2020-12-04T06:00:00Z (not
a midnight), the source's end bound is one day before that time itself
(2020-12-03T06:00:00Z), so the days 2020-12-01, 2020-12-02 AND 2020-12-03 are
summarized — one more day than the claim's end bound of one day before the
MIDNIGHT of the start-of-epoch time allows. -/
theorem c3_counterexample_endtime_not_midnight :
    (summarizeValidatorDays envDec2020x stDec2020).1.daysSummarized
      = [1606780800, 1606867200, 1606953600]
    ∧ specClaimDayRange 1606780800 1607061600 = [1606780800, 1606867200]
    ∧ (summarizeValidatorDays envDec2020x stDec2020).1.daysSummarized
        ≠ specClaimDayRange 1606780800 1607061600 := by
  decide

/-- C5: if the single-permit gate is already held when `OnFinalityUpdated` is
invoked, the call returns immediately: the store (in particular every
checkpoint field) is unchanged and the trace is empty — no stage executed, no
signal, the trigger dropped.  Hence at most one pass is in flight: a second
trigger arriving while the first holds the gate does nothing. -/
theorem c5_gate_drops_concurrent_trigger (s : Service) (env : Env) (st : Store)
    (finalizedEpoch : Nat) :
    OnFinalityUpdated s env true st finalizedEpoch = ⟨st, []⟩ := by
  simp [OnFinalityUpdated]

/-- C10: a disabled stage is a pure no-op: if its enable flag is false it
returns success with the store untouched — in particular the metadata read
counter is unchanged (the checkpoint is not read) and no summary or
checkpoint field is written. -/
theorem c10_disabled_stage_noop (s : Service) (env : Env) (st : Store) (e : Nat) :
    (s.epochSummaries = false → summarizeEpochs s env st e = (st, true))
    ∧ (s.blockSummaries = false → summarizeBlocks s env st e = (st, true))
    ∧ (s.validatorSummaries = false → summarizeValidators s env st e = (st, true)) := by
  refine ⟨fun h => ?_, fun h => ?_, fun h => ?_⟩
  · simp [summarizeEpochs, h]
  · simp [summarizeBlocks, h]
  · simp [summarizeValidators, h]

/-- Witness for C10 at a concrete disabled service. -/
theorem c10_disabled_stage_noop_witness :
    summarizeEpochs sOff envAllOk stInit 3 = (stInit, true)
    ∧ summarizeBlocks sOff envAllOk stInit 3 = (stInit, true)
    ∧ summarizeValidators sOff envAllOk stInit 3 = (stInit, true) :=
  ⟨(c10_disabled_stage_noop sOff envAllOk stInit 3).1 rfl,
   (c10_disabled_stage_noop sOff envAllOk stInit 3).2.1 rfl,
   (c10_disabled_stage_noop sOff envAllOk stInit 3).2.2 rfl⟩

/-- C6: if, within the epoch rollup stage's (possibly clamped) range, every
epoch before `E` has data and `E` reports insufficient data, the stage stops
at `E`, returns success (no error), summarizes exactly the epochs up to
`E - 1`, and leaves `lastEpoch = E - 1`. -/
theorem c6_insufficient_data_halts (s : Service) (env : Env) (st : Store)
    (summaryEpoch E : Nat)
    (hflag : s.epochSummaries = true)
    (hread : env.mdReadFails st.mdReads = false)
    (hwrap : st.md.lastEpoch + 1 < U64)
    (hE1 : 1 ≤ E)
    (hstart : resumePoint st.md.lastEpoch ≤ E)
    (htarget : E ≤ clampTarget s.validatorEpochRetention.isSome
        (s.maxDaysPerRun * epochsPerDay s % U64) (resumePoint st.md.lastEpoch) summaryEpoch)
    (hup : ∀ e', resumePoint st.md.lastEpoch ≤ e' → e' < E → env.epochOutcome e' = .updated)
    (hins : env.epochOutcome E = .insufficient) :
    (summarizeEpochs s env st summaryEpoch).2 = true
    ∧ (summarizeEpochs s env st summaryEpoch).1.md.lastEpoch = E - 1
    ∧ (summarizeEpochs s env st summaryEpoch).1.epochsSummarized
        = st.epochsSummarized
          ++ List.range' (resumePoint st.md.lastEpoch) (E - resumePoint st.md.lastEpoch) := by
  unfold summarizeEpochs
  rw [if_neg (by simp [hflag])]
  have hr : ¬ env.mdReadFails st.mdReads = true := by simp [hread]
  simp only [getMetadata, hr, Bool.false_eq_true, if_false, ite_false]
  unfold epochRange
  obtain ⟨i1, i2, i3⟩ := epochLoop_insufficient_halt env E hins
    (clampTarget s.validatorEpochRetention.isSome (s.maxDaysPerRun * epochsPerDay s % U64)
        (resumePoint st.md.lastEpoch) summaryEpoch + 1 - resumePoint st.md.lastEpoch)
    (resumePoint st.md.lastEpoch)
    { st with mdReads := st.mdReads + 1 }
    hup hstart (by omega)
  refine ⟨i1, ?_, i3⟩
  rw [i2]
  by_cases h0 : st.md.lastEpoch = 0
  · have hrp : resumePoint st.md.lastEpoch = 0 := by simp [resumePoint, h0]
    show (if resumePoint st.md.lastEpoch < E then E - 1 else st.md.lastEpoch) = E - 1
    rw [if_pos (by omega)]
  · have hrp : resumePoint st.md.lastEpoch = st.md.lastEpoch + 1 := by
      simp [resumePoint, h0, Nat.mod_eq_of_lt hwrap]
    show (if resumePoint st.md.lastEpoch < E then E - 1 else st.md.lastEpoch) = E - 1
    split <;> omega

/-- Witness for C6: a checkpoint at epoch 3, data available for epochs 4 and
5, insufficient data at epoch 6: the stage succeeds, summarizes [4, 5] and
leaves `lastEpoch = 5`. -/
theorem c6_insufficient_data_halts_witness :
    (summarizeEpochs sAll envC6 stC6 10).2 = true
    ∧ (summarizeEpochs sAll envC6 stC6 10).1.md.lastEpoch = 5
    ∧ (summarizeEpochs sAll envC6 stC6 10).1.epochsSummarized = [4, 5] := by
  obtain ⟨h1, h2, h3⟩ := c6_insufficient_data_halts sAll envC6 stC6 10 6 rfl rfl
    (by decide) (by decide) (by decide) (by decide)
    (fun e' hl hu => by
      have hl' : 4 ≤ e' := hl
      interval_cases e' <;> rfl)
    rfl
  refine ⟨h1, by rw [h2], by rw [h3]; decide⟩

/-- C3 (amended): for every day-aggregator run that proceeds and in which
every per-day computation succeeds, the run summarizes one UTC day per
iteration from `startTime` (midnight of the genesis day when no day summary
exists, else the day after `lastValidatorDay`) inclusive up to `endTime`
exclusive, where `endTime` is one day before the start-of-epoch time of
`lastValidatorEpoch` ITSELF (not its UTC midnight, as the claim stated), and
advances `lastValidatorDay` to the last summarized day.  On the spec's
concrete instance (genesis 2020-12-01T12:00:00Z, start-of-epoch time
2020-12-04T00:00:00Z — itself a midnight, where the two end bounds agree)
exactly 2020-12-01 and 2020-12-02 are summarized and `lastValidatorDay`
becomes 2020-12-02. -/
theorem c3_day_aggregation_amended (env : Env) (st : Store)
    (startTime endTime : Int)
    (hread : env.mdReadFails st.mdReads = false)
    (hok : ∀ t, env.dayOk t = true)
    (hproceed : env.startOfEpoch st.md.lastValidatorEpoch > st.md.lastValidatorDay + 86400)
    (hstart : startTime = (if st.md.lastValidatorDay = -1 then midnightUTC env.genesisTime
        else st.md.lastValidatorDay + 86400))
    (hend : endTime = env.startOfEpoch st.md.lastValidatorEpoch - 86400) :
    (summarizeValidatorDays env st).2 = true
    ∧ (summarizeValidatorDays env st).1.daysSummarized
        = st.daysSummarized ++ daysFrom startTime endTime
    ∧ (∀ t : Int, t ∈ daysFrom startTime endTime
        ↔ ∃ k : Nat, t = startTime + 86400 * k ∧ t < endTime)
    ∧ (summarizeValidatorDays env st).1.md.lastValidatorDay
        = (daysFrom startTime endTime).getLastD st.md.lastValidatorDay
    ∧ (summarizeValidatorDays envDec2020 stDec2020).1.daysSummarized
        = [1606780800, 1606867200]
    ∧ (summarizeValidatorDays envDec2020 stDec2020).1.md.lastValidatorDay = 1606867200
    ∧ (summarizeValidatorDays envDec2020 stDec2020).2 = true := by
  subst hstart
  subst hend
  unfold summarizeValidatorDays
  have hr : ¬ env.mdReadFails st.mdReads = true := by simp [hread]
  simp only [getMetadata, hr, Bool.false_eq_true, if_false, ite_false]
  rw [if_pos hproceed]
  unfold dayLoop
  rw [dayLoopGo_all_ok env _ hok]
  exact ⟨rfl, rfl,
    fun t => daysFromGo_mem t _ _ _ (Nat.le_refl _),
    rfl, by decide, by decide, by decide⟩

/-- Witness for C3 (amended) at the spec's concrete day-alignment instance. -/
theorem c3_day_aggregation_amended_witness :
    (summarizeValidatorDays envDec2020 stDec2020).2 = true
    ∧ (summarizeValidatorDays envDec2020 stDec2020).1.daysSummarized
        = stDec2020.daysSummarized ++ daysFrom 1606780800 1606953600
    ∧ daysFrom 1606780800 1606953600 = [1606780800, 1606867200] := by
  obtain ⟨h1, h2, _⟩ := c3_day_aggregation_amended envDec2020 stDec2020
    1606780800 1606953600 rfl (fun _ => rfl) (by decide) (by decide) (by decide)
  exact ⟨h1, h2, by decide⟩

/-- C7 (amended): each stage modifies only the checkpoint field it owns, and
every invocation of `OnFinalityUpdated` from a state whose three epoch fields
are below the uint64 wrap boundary (`2^64 - 1`), on a chain whose genesis is
not before the Unix epoch, leaves every one of the four progress fields
non-decreasing.  (At the wrap boundary itself the resume increment wraps and
the field can be rolled back — see the counterexample.) -/
theorem c7_checkpoint_monotonic_amended :
    (∀ (s : Service) (env : Env) (st : Store) (e : Nat),
        (summarizeEpochs s env st e).1.md
          = { st.md with lastEpoch := (summarizeEpochs s env st e).1.md.lastEpoch }
      ∧ (summarizeBlocks s env st e).1.md
          = { st.md with lastBlockEpoch := (summarizeBlocks s env st e).1.md.lastBlockEpoch }
      ∧ (summarizeValidators s env st e).1.md
          = { st.md with
              lastValidatorEpoch := (summarizeValidators s env st e).1.md.lastValidatorEpoch }
      ∧ (summarizeValidatorDays env st).1.md
          = { st.md with
              lastValidatorDay := (summarizeValidatorDays env st).1.md.lastValidatorDay })
    ∧ (∀ (s : Service) (env : Env) (gateHeld : Bool) (st : Store) (f : Nat),
        st.md.lastEpoch + 1 < U64 →
        st.md.lastBlockEpoch + 1 < U64 →
        st.md.lastValidatorEpoch + 1 < U64 →
        0 ≤ env.genesisTime →
        st.md.lastEpoch ≤ (OnFinalityUpdated s env gateHeld st f).store.md.lastEpoch
        ∧ st.md.lastBlockEpoch ≤ (OnFinalityUpdated s env gateHeld st f).store.md.lastBlockEpoch
        ∧ st.md.lastValidatorEpoch
            ≤ (OnFinalityUpdated s env gateHeld st f).store.md.lastValidatorEpoch
        ∧ st.md.lastValidatorDay
            ≤ (OnFinalityUpdated s env gateHeld st f).store.md.lastValidatorDay) := by
  refine ⟨fun s env st e => ⟨summarizeEpochs_md s env st e, summarizeBlocks_md s env st e,
    summarizeValidators_md s env st e, summarizeValidatorDays_md env st⟩, ?_⟩
  intro s env gateHeld st f h1 h2 h3 hg
  unfold OnFinalityUpdated
  split
  · exact ⟨Nat.le_refl _, Nat.le_refl _, Nat.le_refl _, Int.le_refl _⟩
  split
  · exact ⟨Nat.le_refl _, Nat.le_refl _, Nat.le_refl _, Int.le_refl _⟩
  rcases hE : summarizeEpochs s env st (f - 1) with ⟨st1, b1⟩
  have hE1 : st1.md = { st.md with lastEpoch := st1.md.lastEpoch } := by
    have h := summarizeEpochs_md s env st (f - 1)
    rw [hE] at h
    exact h
  have A1 : st.md.lastEpoch ≤ st1.md.lastEpoch := by
    have h := summarizeEpochs_lastEpoch_le s env st (f - 1) h1
    rw [hE] at h
    exact h
  have A2 : st1.md.lastBlockEpoch = st.md.lastBlockEpoch := by rw [hE1]
  have A3 : st1.md.lastValidatorEpoch = st.md.lastValidatorEpoch := by rw [hE1]
  have A4 : st1.md.lastValidatorDay = st.md.lastValidatorDay := by rw [hE1]
  cases b1 with
  | false =>
    simp only [hE]
    refine ⟨?_, ?_, ?_, ?_⟩
    · show st.md.lastEpoch ≤ st1.md.lastEpoch
      omega
    · show st.md.lastBlockEpoch ≤ st1.md.lastBlockEpoch
      omega
    · show st.md.lastValidatorEpoch ≤ st1.md.lastValidatorEpoch
      omega
    · show st.md.lastValidatorDay ≤ st1.md.lastValidatorDay
      omega
  | true =>
    simp only [hE]
    rcases hB : summarizeBlocks s env st1 (f - 1) with ⟨st2, b2⟩
    have hB1 : st2.md = { st1.md with lastBlockEpoch := st2.md.lastBlockEpoch } := by
      have h := summarizeBlocks_md s env st1 (f - 1)
      rw [hB] at h
      exact h
    have B1 : st1.md.lastBlockEpoch ≤ st2.md.lastBlockEpoch := by
      have h := summarizeBlocks_lastBlockEpoch_le s env st1 (f - 1) (by omega)
      rw [hB] at h
      exact h
    have B2 : st2.md.lastEpoch = st1.md.lastEpoch := by rw [hB1]
    have B3 : st2.md.lastValidatorEpoch = st1.md.lastValidatorEpoch := by rw [hB1]
    have B4 : st2.md.lastValidatorDay = st1.md.lastValidatorDay := by rw [hB1]
    cases b2 with
    | false =>
      simp only [hB]
      refine ⟨?_, ?_, ?_, ?_⟩
      · show st.md.lastEpoch ≤ st2.md.lastEpoch
        omega
      · show st.md.lastBlockEpoch ≤ st2.md.lastBlockEpoch
        omega
      · show st.md.lastValidatorEpoch ≤ st2.md.lastValidatorEpoch
        omega
      · show st.md.lastValidatorDay ≤ st2.md.lastValidatorDay
        omega
    | true =>
      simp only [hB]
      rcases hV : summarizeValidators s env st2 (f - 1) with ⟨st3, b3⟩
      have hV1 : st3.md = { st2.md with lastValidatorEpoch := st3.md.lastValidatorEpoch } := by
        have h := summarizeValidators_md s env st2 (f - 1)
        rw [hV] at h
        exact h
      have C1 : st2.md.lastValidatorEpoch ≤ st3.md.lastValidatorEpoch := by
        have h := summarizeValidators_lastValidatorEpoch_le s env st2 (f - 1) (by omega)
        rw [hV] at h
        exact h
      have C2 : st3.md.lastEpoch = st2.md.lastEpoch := by rw [hV1]
      have C3 : st3.md.lastBlockEpoch = st2.md.lastBlockEpoch := by rw [hV1]
      have C4 : st3.md.lastValidatorDay = st2.md.lastValidatorDay := by rw [hV1]
      cases b3 with
      | false =>
        simp only [hV]
        refine ⟨?_, ?_, ?_, ?_⟩
        · show st.md.lastEpoch ≤ st3.md.lastEpoch
          omega
        · show st.md.lastBlockEpoch ≤ st3.md.lastBlockEpoch
          omega
        · show st.md.lastValidatorEpoch ≤ st3.md.lastValidatorEpoch
          omega
        · show st.md.lastValidatorDay ≤ st3.md.lastValidatorDay
          omega
      | true =>
        simp only [hV]
        rcases hM : getMetadata env st3 with ⟨st4, mdOpt⟩
        have hst4 : st4 = { st3 with mdReads := st3.mdReads + 1 } := by
          have h := getMetadata_fst env st3
          rw [hM] at h
          exact h
        have D1 : st4.md.lastEpoch = st3.md.lastEpoch := by rw [hst4]
        have D2 : st4.md.lastBlockEpoch = st3.md.lastBlockEpoch := by rw [hst4]
        have D3 : st4.md.lastValidatorEpoch = st3.md.lastValidatorEpoch := by rw [hst4]
        have D4 : st4.md.lastValidatorDay = st3.md.lastValidatorDay := by rw [hst4]
        simp only [hM]
        have hdays : ∀ st5 : Store,
            st4.md.lastValidatorDay ≤ st5.md.lastValidatorDay →
            st5.md.lastEpoch = st4.md.lastEpoch →
            st5.md.lastBlockEpoch = st4.md.lastBlockEpoch →
            st5.md.lastValidatorEpoch = st4.md.lastValidatorEpoch →
            st.md.lastEpoch ≤ st5.md.lastEpoch
            ∧ st.md.lastBlockEpoch ≤ st5.md.lastBlockEpoch
            ∧ st.md.lastValidatorEpoch ≤ st5.md.lastValidatorEpoch
            ∧ st.md.lastValidatorDay ≤ st5.md.lastValidatorDay := by
          intro st5 p1 p2 p3 p4
          exact ⟨by omega, by omega, by omega, by omega⟩
        rcases mdOpt with _ | md
        · rw [if_neg (show ¬ (((none : Option Metadata)).getD zeroMetadata).periodicValidatorRollups
              = true by decide)]
          exact hdays st4 (Int.le_refl _) rfl rfl rfl
        · by_cases hfl : md.periodicValidatorRollups = true
          · rw [if_pos (show ((some md).getD zeroMetadata).periodicValidatorRollups = true from hfl)]
            rcases hD : summarizeValidatorDays env st4 with ⟨st5, b5⟩
            have hD1 : st5.md = { st4.md with lastValidatorDay := st5.md.lastValidatorDay } := by
              have h := summarizeValidatorDays_md env st4
              rw [hD] at h
              exact h
            have E1 : st4.md.lastValidatorDay ≤ st5.md.lastValidatorDay := by
              have h := summarizeValidatorDays_day_le env st4 hg
              rw [hD] at h
              exact h
            have E2 : st5.md.lastEpoch = st4.md.lastEpoch := by rw [hD1]
            have E3 : st5.md.lastBlockEpoch = st4.md.lastBlockEpoch := by rw [hD1]
            have E4 : st5.md.lastValidatorEpoch = st4.md.lastValidatorEpoch := by rw [hD1]
            cases b5 with
            | false =>
              simp only [hD]
              exact hdays st5 E1 E2 E3 E4
            | true =>
              simp only [hD]
              rcases hP : prune env st5 (f - 1) with ⟨st6, b6⟩
              have hst6 : st6 = st5 := by
                have h := congrArg Prod.fst hP
                exact h.symm
              subst hst6
              cases b6 with
              | false =>
                simp only [hP]
                exact hdays st6 E1 E2 E3 E4
              | true =>
                simp only [hP]
                exact hdays st6 E1 E2 E3 E4
          · rw [if_neg (show ¬ ((some md).getD zeroMetadata).periodicValidatorRollups = true
                from hfl)]
            exact hdays st4 (Int.le_refl _) rfl rfl rfl

/-- Witness for C7 (amended) at the initial checkpoint. -/
theorem c7_checkpoint_monotonic_amended_witness :
    stInit.md.lastEpoch ≤ (OnFinalityUpdated sAll envAllOk false stInit 3).store.md.lastEpoch
    ∧ stInit.md.lastBlockEpoch
        ≤ (OnFinalityUpdated sAll envAllOk false stInit 3).store.md.lastBlockEpoch
    ∧ stInit.md.lastValidatorEpoch
        ≤ (OnFinalityUpdated sAll envAllOk false stInit 3).store.md.lastValidatorEpoch
    ∧ stInit.md.lastValidatorDay
        ≤ (OnFinalityUpdated sAll envAllOk false stInit 3).store.md.lastValidatorDay :=
  c7_checkpoint_monotonic_amended.2 sAll envAllOk false stInit 3
    (by decide) (by decide) (by decide) (by decide)

/-- C8: when the checkpoint's `periodicValidatorRollups` flag is false the
Day Aggregator and the Pruner never run (no day or prune event appears in the
trace of any invocation), and in every trace the Pruner executes only after a
Day Aggregator pass has completed without error in the same trigger (every
prune event sits strictly after a `dayOk` event). -/
theorem c8_rollup_gating_and_prune_order (s : Service) (env : Env) (gateHeld : Bool)
    (st : Store) (f : Nat) :
    (st.md.periodicValidatorRollups = false →
        Event.dayOk ∉ (OnFinalityUpdated s env gateHeld st f).trace
      ∧ Event.dayErr ∉ (OnFinalityUpdated s env gateHeld st f).trace
      ∧ Event.pruneOk ∉ (OnFinalityUpdated s env gateHeld st f).trace
      ∧ Event.pruneErr ∉ (OnFinalityUpdated s env gateHeld st f).trace)
    ∧ ((Event.pruneOk ∈ (OnFinalityUpdated s env gateHeld st f).trace
        ∨ Event.pruneErr ∈ (OnFinalityUpdated s env gateHeld st f).trace) →
        ∃ l1 l2, (OnFinalityUpdated s env gateHeld st f).trace = l1 ++ Event.dayOk :: l2
          ∧ (Event.pruneOk ∈ l2 ∨ Event.pruneErr ∈ l2)) := by
  unfold OnFinalityUpdated
  split
  · exact ⟨fun _ => by simp, fun h => by simp at h⟩
  split
  · exact ⟨fun _ => by simp, fun h => by simp at h⟩
  rcases hE : summarizeEpochs s env st (f - 1) with ⟨st1, b1⟩
  have hE1 : st1.md = { st.md with lastEpoch := st1.md.lastEpoch } := by
    have h := summarizeEpochs_md s env st (f - 1)
    rw [hE] at h
    exact h
  have F1 : st1.md.periodicValidatorRollups = st.md.periodicValidatorRollups := by rw [hE1]
  cases b1 with
  | false =>
    simp only [hE]
    exact ⟨fun _ => by simp, fun h => by simp at h⟩
  | true =>
    simp only [hE]
    rcases hB : summarizeBlocks s env st1 (f - 1) with ⟨st2, b2⟩
    have hB1 : st2.md = { st1.md with lastBlockEpoch := st2.md.lastBlockEpoch } := by
      have h := summarizeBlocks_md s env st1 (f - 1)
      rw [hB] at h
      exact h
    have F2 : st2.md.periodicValidatorRollups = st1.md.periodicValidatorRollups := by rw [hB1]
    cases b2 with
    | false =>
      simp only [hB]
      exact ⟨fun _ => by simp, fun h => by simp at h⟩
    | true =>
      simp only [hB]
      rcases hV : summarizeValidators s env st2 (f - 1) with ⟨st3, b3⟩
      have hV1 : st3.md = { st2.md with lastValidatorEpoch := st3.md.lastValidatorEpoch } := by
        have h := summarizeValidators_md s env st2 (f - 1)
        rw [hV] at h
        exact h
      have F3 : st3.md.periodicValidatorRollups = st2.md.periodicValidatorRollups := by rw [hV1]
      cases b3 with
      | false =>
        simp only [hV]
        exact ⟨fun _ => by simp, fun h => by simp at h⟩
      | true =>
        simp only [hV]
        rcases hM : getMetadata env st3 with ⟨st4, mdOpt⟩
        simp only [hM]
        rcases mdOpt with _ | md
        · rw [if_neg (show ¬ (((none : Option Metadata)).getD zeroMetadata).periodicValidatorRollups
              = true by decide)]
          exact ⟨fun _ => by simp, fun h => by simp at h⟩
        · have hmd : md = st3.md := getMetadata_some (by rw [hM])
          by_cases hfl : md.periodicValidatorRollups = true
          · have hcontra : st.md.periodicValidatorRollups = true := by
              rw [← F1, ← F2, ← F3, ← hmd]
              exact hfl
            rw [if_pos (show ((some md).getD zeroMetadata).periodicValidatorRollups = true from hfl)]
            rcases hD : summarizeValidatorDays env st4 with ⟨st5, b5⟩
            cases b5 with
            | false =>
              simp only [hD]
              exact ⟨fun hf => absurd hcontra (by simp [hf]), fun h => by simp at h⟩
            | true =>
              simp only [hD]
              rcases hP : prune env st5 (f - 1) with ⟨st6, b6⟩
              cases b6 with
              | false =>
                simp only [hP]
                refine ⟨fun hf => absurd hcontra (by simp [hf]), fun _ => ?_⟩
                exact ⟨[Event.epochsOk, Event.blocksOk, Event.validatorsOk], [Event.pruneErr],
                  by simp, Or.inr (by simp)⟩
              | true =>
                simp only [hP]
                refine ⟨fun hf => absurd hcontra (by simp [hf]), fun _ => ?_⟩
                exact ⟨[Event.epochsOk, Event.blocksOk, Event.validatorsOk],
                  [Event.pruneOk, Event.signal], by simp, Or.inl (by simp)⟩
          · rw [if_neg (show ¬ ((some md).getD zeroMetadata).periodicValidatorRollups = true
                from hfl)]
            exact ⟨fun _ => by simp, fun h => by simp at h⟩

/-- Witness for C8: with the rollups flag off nothing day- or prune-related
appears in the trace; with the flag on and an error-free pass the prune event
sits after the day aggregator's completion. -/
theorem c8_rollup_gating_and_prune_order_witness :
    (Event.dayOk ∉ (OnFinalityUpdated sAll envAllOk false stInit 3).trace
      ∧ Event.dayErr ∉ (OnFinalityUpdated sAll envAllOk false stInit 3).trace
      ∧ Event.pruneOk ∉ (OnFinalityUpdated sAll envAllOk false stInit 3).trace
      ∧ Event.pruneErr ∉ (OnFinalityUpdated sAll envAllOk false stInit 3).trace)
    ∧ (∃ l1 l2, (OnFinalityUpdated sAll envDec2020 false stDec2020 3).trace
        = l1 ++ Event.dayOk :: l2 ∧ (Event.pruneOk ∈ l2 ∨ Event.pruneErr ∈ l2)) :=
  ⟨(c8_rollup_gating_and_prune_order sAll envAllOk false stInit 3).1 rfl,
   (c8_rollup_gating_and_prune_order sAll envDec2020 false stDec2020 3).2 (Or.inl (by decide))⟩

/-- C9: construction refuses to start on any missing requirement: parameter
checking errors whenever the folded options leave no chain database, no
listen address, or a zero timeout; `New` propagates a parameter-parsing
failure as an error; `New` returns one of the named missing-capability errors
whenever the chain database fails to implement any required capability; and
when every capability is present (and metrics registration succeeds) `New`
returns a service. -/
theorem c9_construction_refuses_invalid :
    (∀ (g : Int) (params : List Parameter),
        ((applyParameters g params).chainDB = none
          ∨ (applyParameters g params).listenAddress = ""
          ∨ (applyParameters g params).timeout = 0) →
        ∃ e, parseAndCheckParameters g params = Except.error e)
    ∧ (∀ (e : String) (m : Bool),
        New (Except.error e) m = Except.error "problem with parameters")
    ∧ (∀ p : SummarizerParameters, hasAllCapabilities p.chainDB = false →
        ∃ e, New (Except.ok p) true = Except.error e ∧ e ∈ capabilityErrors)
    ∧ (∀ p : SummarizerParameters, hasAllCapabilities p.chainDB = true →
        ∃ sv, New (Except.ok p) true = Except.ok sv) := by
  refine ⟨?_, ?_, ?_, ?_⟩
  · intro g params h
    unfold parseAndCheckParameters
    rcases h with h | h | h
    · rw [if_pos h]
      exact ⟨_, rfl⟩
    · by_cases hdb : (applyParameters g params).chainDB = none
      · rw [if_pos hdb]
        exact ⟨_, rfl⟩
      · rw [if_neg hdb, if_pos h]
        exact ⟨_, rfl⟩
    · by_cases hdb : (applyParameters g params).chainDB = none
      · rw [if_pos hdb]
        exact ⟨_, rfl⟩
      · by_cases hla : (applyParameters g params).listenAddress = ""
        · rw [if_neg hdb, if_pos hla]
          exact ⟨_, rfl⟩
        · rw [if_neg hdb, if_neg hla, if_pos h]
          exact ⟨_, rfl⟩
  · intro e m
    rfl
  · intro p hall
    rcases h1 : p.chainDB.isProposerDutiesProvider with _ | _
    · exact ⟨"chain DB does not provide proposer duties",
        by simp [New, h1], by simp [capabilityErrors]⟩
    rcases h2 : p.chainDB.isAttestationsProvider with _ | _
    · exact ⟨"chain DB does not provide attestations",
        by simp [New, h1, h2], by simp [capabilityErrors]⟩
    rcases h3 : p.chainDB.isBlocksProvider with _ | _
    · exact ⟨"chain DB does not provide blocks",
        by simp [New, h1, h2, h3], by simp [capabilityErrors]⟩
    rcases h4 : p.chainDB.isBlocksSetter with _ | _
    · exact ⟨"chain DB does not support block setting",
        by simp [New, h1, h2, h3, h4], by simp [capabilityErrors]⟩
    rcases h5 : p.chainDB.isDepositsProvider with _ | _
    · exact ⟨"chain DB does not provide deposits",
        by simp [New, h1, h2, h3, h4, h5], by simp [capabilityErrors]⟩
    rcases h6 : p.chainDB.isValidatorsProvider with _ | _
    · exact ⟨"chain DB does not provide validators",
        by simp [New, h1, h2, h3, h4, h5, h6], by simp [capabilityErrors]⟩
    rcases h7 : p.chainDB.isAttesterSlashingsProvider with _ | _
    · exact ⟨"chain DB does not provide attester slashings",
        by simp [New, h1, h2, h3, h4, h5, h6, h7], by simp [capabilityErrors]⟩
    rcases h8 : p.chainDB.isProposerSlashingsProvider with _ | _
    · exact ⟨"chain DB does not provide proposer slashings",
        by simp [New, h1, h2, h3, h4, h5, h6, h7, h8], by simp [capabilityErrors]⟩
    simp [hasAllCapabilities, h1, h2, h3, h4, h5, h6, h7, h8] at hall
  · intro p hall
    simp only [hasAllCapabilities, Bool.and_eq_true] at hall
    obtain ⟨⟨⟨⟨⟨⟨⟨h1, h2⟩, h3⟩, h4⟩, h5⟩, h6⟩, h7⟩, h8⟩ := hall
    refine ⟨{ chainDB := p.chainDB
              epochSummaries := p.epochSummaries
              blockSummaries := p.blockSummaries
              validatorSummaries := p.validatorSummaries }, ?_⟩
    simp [New, h1, h2, h3, h4, h5, h6, h7, h8]

/-- Witness for C9: empty options miss the chain database; a database missing
the attestations capability is refused with a named error; a fully capable
database constructs a service. -/
theorem c9_construction_refuses_invalid_witness :
    (∃ e, parseAndCheckParameters 0 [] = Except.error e)
    ∧ New (Except.error "x") true = Except.error "problem with parameters"
    ∧ (∃ e, New (Except.ok pNoAtt) true = Except.error e ∧ e ∈ capabilityErrors)
    ∧ (∃ sv, New (Except.ok pAllCaps) true = Except.ok sv) :=
  ⟨c9_construction_refuses_invalid.1 0 [] (Or.inl rfl),
   c9_construction_refuses_invalid.2.1 "x" true,
   c9_construction_refuses_invalid.2.2.1 pNoAtt (by decide),
   c9_construction_refuses_invalid.2.2.2 pAllCaps (by decide)⟩

end Chaind
